import Mathlib

/-!
Verification of the slideshow scheduling and timeline-emission core of
`generate_openshot_project.py`.

Durations and timestamps are modelled as exact rationals (`ℚ`); Python floats
are treated as real numbers, so "within floating-point tolerance" statements
become exact equalities.  The scheduling `while` loop is embedded as a
fuel-indexed recursion `scheduleLoop`; termination lemmas show the fuel
`fuelFor` (= `⌈window_length / photo_duration⌉ + 1`) suffices whenever the
effective photo duration is positive, which is exactly the regime in which the
Python loop terminates.
-/

namespace OpenshotGen

/-- One scheduled appearance of a photo, mirroring the dictionaries appended to
`photo_schedule` / `photo_clips` in the source (`photo_index`, `start`/
`position`, `duration`).  The photo file itself is recovered from the index by
round-robin (`photos[photo_index % len(photos)]`), so only the index is kept. -/
structure Placement where
  index : Nat
  position : ℚ
  duration : ℚ
deriving DecidableEq, Repr

instance : Inhabited Placement := ⟨⟨0, 0, 0⟩⟩

/-- The scheduling `while` loop shared by `render_video_with_libopenshot`
(lines 252-264), `render_video` (lines 522-534) and `create_openshot_project`
(lines 838-849 and 1044-1057):

    while current_time < slideshow_start + slideshow_duration:
        remaining_duration = (slideshow_start + slideshow_duration) - current_time
        clip_duration = min(effective_photo_duration, remaining_duration)
        append {index: photo_index, position: current_time, duration: clip_duration}
        current_time += clip_duration
        photo_index += 1

embedded with explicit fuel; the returned rational is the final value of
`current_time`. -/
def scheduleLoop (windowEnd photoDuration : ℚ) : Nat → ℚ → Nat → List Placement × ℚ
  | 0, currentTime, _ => ([], currentTime)
  | fuel + 1, currentTime, photoIndex =>
    if currentTime < windowEnd then
      let remaining := windowEnd - currentTime
      let clipDuration := min photoDuration remaining
      let rest := scheduleLoop windowEnd photoDuration fuel (currentTime + clipDuration) (photoIndex + 1)
      (⟨photoIndex, currentTime, clipDuration⟩ :: rest.1, rest.2)
    else ([], currentTime)

/-- Fuel sufficient for the loop when the photo duration is positive:
`⌈window_length / photo_duration⌉ + 1`. -/
def fuelFor (windowLength photoDuration : ℚ) : Nat :=
  (⌈windowLength / photoDuration⌉).toNat + 1

/-- The full schedule produced by the loop, starting from
`current_time = slideshow_start` and `photo_index = 0`. -/
def buildSchedule (windowStart windowLength photoDuration : ℚ) : List Placement :=
  (scheduleLoop (windowStart + windowLength) photoDuration
      (fuelFor windowLength photoDuration) windowStart 0).1

/-- Sum of the `duration` fields of a schedule. -/
def sumDur (sched : List Placement) : ℚ :=
  (sched.map Placement.duration).sum

/-- `compute_photo_and_fade` (lines 179-194):

    if num_photos <= 0:
        return requested_photo, min(requested_fade, requested_photo / 2)
    max_per_photo = slideshow_duration / num_photos if slideshow_duration > 0 else requested_photo
    photo_duration = min(requested_photo, max_per_photo) if max_per_photo > 0 else requested_photo
    fade_duration = min(requested_fade, photo_duration / 2)
    return photo_duration, fade_duration
-/
def computePhotoAndFade (slideshowDuration : ℚ) (numPhotos : ℤ)
    (requestedPhoto requestedFade : ℚ) : ℚ × ℚ :=
  if numPhotos ≤ 0 then
    (requestedPhoto, min requestedFade (requestedPhoto / 2))
  else
    let maxPerPhoto := if 0 < slideshowDuration then slideshowDuration / (numPhotos : ℚ)
                       else requestedPhoto
    let photoDuration := if 0 < maxPerPhoto then min requestedPhoto maxPerPhoto
                         else requestedPhoto
    (photoDuration, min requestedFade (photoDuration / 2))

/-- The slideshow window derived from the audio duration:
`slideshow_start = intro_duration`,
`slideshow_duration = audio_duration - intro_duration - outro_duration`. -/
def slideshowWindow (audioDuration introDuration outroDuration : ℚ) : ℚ × ℚ :=
  (introDuration, audioDuration - introDuration - outroDuration)

/-- Python `int(x)` on a float: truncation toward zero. -/
def pyInt (q : ℚ) : ℤ :=
  if q < 0 then ⌈q⌉ else ⌊q⌋

/-- The auto-shrink of intro/outro in `create_openshot_project` (lines 794-805):

    if slideshow_duration < 0:
        total_io = intro_duration + outro_duration
        if total_io > audio_duration * 0.8:
            scale = (audio_duration * 0.6) / total_io
            intro_duration = max(5, int(intro_duration * scale))
            outro_duration = max(5, int(outro_duration * scale))

returning the (possibly rescaled) intro and outro durations. -/
def autoShrinkIntroOutro (audioDuration introDuration outroDuration : ℚ) : ℚ × ℚ :=
  if audioDuration - introDuration - outroDuration < 0 then
    let totalIO := introDuration + outroDuration
    if audioDuration * (8 / 10) < totalIO then
      let scale := (audioDuration * (6 / 10)) / totalIO
      (((max 5 (pyInt (introDuration * scale)) : ℤ) : ℚ),
       ((max 5 (pyInt (outroDuration * scale)) : ℤ) : ℚ))
    else (introDuration, outroDuration)
  else (introDuration, outroDuration)

/-- Auto-shrink followed by the final feasibility check (lines 807-810): returns
the adjusted `(intro, slideshow_duration)` or the "timing" error raised when the
window is still negative. -/
def adjustedWindow (audioDuration introDuration outroDuration : ℚ) :
    Except String (ℚ × ℚ) :=
  let io := autoShrinkIntroOutro audioDuration introDuration outroDuration
  let sd := audioDuration - io.1 - io.2
  if sd < 0 then Except.error "timing" else Except.ok (io.1, sd)

/-- Number of Mask transition descriptors emitted by `create_openshot_project`
(lines 1134-1159): one per adjacent pair, `range(len(clip_objects) - 1)`. -/
def numTransitions (sched : List Placement) : Nat :=
  sched.length - 1

/-- Positions of the transition descriptors: transition `idx` is placed at
`photo_clips[idx + 1]['position']` (line 1141). -/
def transitionPositions (sched : List Placement) : List ℚ :=
  (sched.drop 1).map Placement.position

/-- Declared clip duration in the declarative (overlapping) emitter
(lines 1084-1087): every clip except the last is extended by the effective fade
duration so consecutive clips overlap. -/
def overlapClipDuration (fade : ℚ) (sched : List Placement) (i : Nat) : ℚ :=
  (sched.getD i default).duration + (if i + 1 < sched.length then fade else 0)

/-- The cumulative-offset loop of the xfade filter builder in `render_video`
(lines 598-608):

    cumulative_offset = 0
    for i in range(1, len(photo_schedule)):
        cumulative_offset += photo_schedule[i-1]['duration'] - effective_fade_duration
        ... offset={cumulative_offset} ...

expressed as a recursion over the list of scheduled durations; one offset is
emitted per adjacent pair. -/
def xfadeOffsetsAux (fade : ℚ) : ℚ → List ℚ → List ℚ
  | _, [] => []
  | acc, d :: rest =>
    if rest = [] then []
    else
      let acc2 := acc + d - fade
      acc2 :: xfadeOffsetsAux fade acc2 rest

/-- Start times (offsets in the slideshow-local output stream) of the xfade
windows, for a list of scheduled clip durations. -/
def xfadeOffsets (fade : ℚ) (durations : List ℚ) : List ℚ :=
  xfadeOffsetsAux fade 0 durations

/-- Abstract events of a pipeline run, in source order. -/
inductive Event where
  | probeAudio
  | trimError
  | timingError
  | scanPhotos
  | noPhotosError
  | schedulePlacement (i : Nat)
  | createTempDir
  | renderSlideshow
  | writeOutput
deriving DecidableEq, Repr

/-- Event trace of `render_video` (lines 466-748), keeping the source order:
probe audio; raise on negative window (line 498); scan photos (raising when none
are found, `get_sorted_photos` line 173); fit-adjust; compute the placement
schedule (lines 518-538); only then create the temporary directory (line 542),
render and write the output. -/
def renderVideoTrace (audioDuration introDuration outroDuration : ℚ)
    (photoCount : Nat) (requestedPhoto requestedFade : ℚ) : List Event :=
  Event.probeAudio ::
    if audioDuration - introDuration - outroDuration < 0 then [Event.timingError]
    else
      Event.scanPhotos ::
        if photoCount = 0 then [Event.noPhotosError]
        else
          let pf := computePhotoAndFade (audioDuration - introDuration - outroDuration)
              (photoCount : ℤ) requestedPhoto requestedFade
          ((buildSchedule introDuration (audioDuration - introDuration - outroDuration) pf.1).map
              (fun p => Event.schedulePlacement p.index))
            ++ [Event.createTempDir, Event.renderSlideshow, Event.writeOutput]

/-- Event trace of `create_openshot_project` (lines 751-1193): probe audio;
raise when the trim values consume the whole audio (line 782); auto-shrink and
raise when the window is still negative (lines 794-810); scan photos (raising
when none); schedule; write the project JSON (line 1181) only at the very
end. -/
def createProjectTrace (rawAudio trimStart trimEnd introDuration outroDuration : ℚ)
    (photoCount : Nat) (requestedPhoto requestedFade : ℚ) : List Event :=
  Event.probeAudio ::
    (let audio := rawAudio - trimStart - trimEnd
     if audio ≤ 0 then [Event.trimError]
     else
       let io := autoShrinkIntroOutro audio introDuration outroDuration
       let sd := audio - io.1 - io.2
       if sd < 0 then [Event.timingError]
       else
         Event.scanPhotos ::
           if photoCount = 0 then [Event.noPhotosError]
           else
             let pf := computePhotoAndFade sd (photoCount : ℤ) requestedPhoto requestedFade
             ((buildSchedule io.1 sd pf.1).map (fun p => Event.schedulePlacement p.index))
               ++ [Event.writeOutput])

/-- The scheduling-relevant data of the produced `.osp` project. -/
structure Project where
  duration : ℚ
  audioStart : ℚ
  audioEnd : ℚ
  windowStart : ℚ
  windowLength : ℚ
  photoSchedule : List Placement
  transitionCount : Nat
deriving DecidableEq, Repr

/-- Functional model of `create_openshot_project` (lines 751-1193), retaining
the timing data written into the project JSON: the trimmed audio duration
(line 781), the audio clip's source span `start = trim_start`,
`end = trim_start + audio_duration` (lines 1005-1006), the slideshow window
after auto-shrink, the photo schedule, and the number of Mask transitions. -/
def createOpenshotProject (rawAudio trimStart trimEnd introDuration outroDuration : ℚ)
    (photoCount : Nat) (requestedPhoto requestedFade : ℚ) :
    Except String Project :=
  let audio := rawAudio - trimStart - trimEnd
  if audio ≤ 0 then Except.error "trim"
  else
    let io := autoShrinkIntroOutro audio introDuration outroDuration
    let sd := audio - io.1 - io.2
    if sd < 0 then Except.error "timing"
    else if photoCount = 0 then Except.error "noPhotos"
    else
      let pf := computePhotoAndFade sd (photoCount : ℤ) requestedPhoto requestedFade
      let sched := buildSchedule io.1 sd pf.1
      Except.ok ⟨audio, trimStart, trimStart + audio, io.1, sd, sched, sched.length - 1⟩

/-- A schedule is `Chained t` when its placements sit back to back starting at
time `t`: each placement's position is the running time, which then advances by
its duration. -/
def Chained : ℚ → List Placement → Prop
  | _, [] => True
  | t, p :: ps => p.position = t ∧ Chained (t + p.duration) ps

/-- The sequential-mode partition property of claim C1 for a schedule on the
window `[ws, ws + wl)`. -/
def SeqPartition (ws wl : ℚ) (sched : List Placement) : Prop :=
  sched ≠ [] ∧
  (sched.getD 0 default).position = ws ∧
  (∀ i, i + 1 < sched.length →
    (sched.getD (i + 1) default).position
      = (sched.getD i default).position + (sched.getD i default).duration) ∧
  (∀ i j, i < j → j < sched.length →
    (sched.getD i default).position < (sched.getD j default).position) ∧
  sumDur sched = wl ∧
  (sched.getD (sched.length - 1) default).position
      + (sched.getD (sched.length - 1) default).duration = ws + wl

/-- A trace fails cleanly when it computed no placements, created no temporary
directory and wrote no output. -/
def FailsClean (tr : List Event) : Prop :=
  (∀ i, Event.schedulePlacement i ∉ tr) ∧
  Event.createTempDir ∉ tr ∧
  Event.writeOutput ∉ tr

/-! ### Generic lemmas about the scheduling loop -/

lemma sumDur_nil : sumDur [] = 0 := rfl

lemma sumDur_cons (p : Placement) (l : List Placement) :
    sumDur (p :: l) = p.duration + sumDur l := by
  simp [sumDur]

lemma fuelFor_eq {wl pd : ℚ} {n : ℕ} (h : ⌈wl / pd⌉ = (n : ℤ)) :
    fuelFor wl pd = n + 1 := by
  rw [fuelFor, h, Int.toNat_natCast]

lemma scheduleLoop_succ (e pd : ℚ) (fuel : Nat) (t : ℚ) (i : Nat) :
    scheduleLoop e pd (fuel + 1) t i =
      if t < e then
        let clip := min pd (e - t)
        let rest := scheduleLoop e pd fuel (t + clip) (i + 1)
        (⟨i, t, clip⟩ :: rest.1, rest.2)
      else ([], t) := rfl

lemma scheduleLoop_final_eq (e pd : ℚ) :
    ∀ (fuel : Nat) (t : ℚ) (i : Nat),
      (scheduleLoop e pd fuel t i).2 = t + sumDur (scheduleLoop e pd fuel t i).1 := by
  intro fuel
  induction fuel with
  | zero => intro t i; simp [scheduleLoop, sumDur_nil]
  | succ f ih =>
    intro t i
    by_cases h : t < e
    · simp only [scheduleLoop_succ, if_pos h, sumDur_cons]
      rw [ih]
      ring
    · simp [scheduleLoop_succ, if_neg h, sumDur_nil]

lemma scheduleLoop_chained (e pd : ℚ) :
    ∀ (fuel : Nat) (t : ℚ) (i : Nat),
      Chained t (scheduleLoop e pd fuel t i).1 := by
  intro fuel
  induction fuel with
  | zero => intro t i; simp [scheduleLoop, Chained]
  | succ f ih =>
    intro t i
    by_cases h : t < e
    · simp only [scheduleLoop_succ, if_pos h]
      exact ⟨rfl, ih _ _⟩
    · simp [scheduleLoop_succ, if_neg h, Chained]

lemma scheduleLoop_length_le (e pd : ℚ) :
    ∀ (fuel : Nat) (t : ℚ) (i : Nat),
      (scheduleLoop e pd fuel t i).1.length ≤ fuel := by
  intro fuel
  induction fuel with
  | zero => intro t i; simp [scheduleLoop]
  | succ f ih =>
    intro t i
    by_cases h : t < e
    · simp only [scheduleLoop_succ, if_pos h, List.length_cons]
      exact Nat.succ_le_succ (ih _ _)
    · simp [scheduleLoop_succ, if_neg h]

lemma scheduleLoop_dur_pos (e pd : ℚ) (hpd : 0 < pd) :
    ∀ (fuel : Nat) (t : ℚ) (i : Nat),
      ∀ p ∈ (scheduleLoop e pd fuel t i).1, 0 < p.duration := by
  intro fuel
  induction fuel with
  | zero => intro t i p hp; simp [scheduleLoop] at hp
  | succ f ih =>
    intro t i p hp
    by_cases h : t < e
    · simp only [scheduleLoop_succ, if_pos h, List.mem_cons] at hp
      rcases hp with rfl | hp
      · exact lt_min hpd (by linarith)
      · exact ih _ _ p hp
    · simp [scheduleLoop_succ, if_neg h] at hp

lemma scheduleLoop_ne_nil (e pd : ℚ) (fuel : Nat) (t : ℚ) (i : Nat) (ht : t < e) :
    (scheduleLoop e pd (fuel + 1) t i).1 ≠ [] := by
  simp only [scheduleLoop_succ, if_pos ht]
  exact List.cons_ne_nil _ _

lemma scheduleLoop_complete (e pd : ℚ) (_hpd : 0 < pd) :
    ∀ (fuel : Nat) (t : ℚ) (i : Nat),
      t < e → e - t ≤ (fuel : ℚ) * pd → (scheduleLoop e pd fuel t i).2 = e := by
  intro fuel
  induction fuel with
  | zero =>
    intro t i ht hfe
    norm_num at hfe
    linarith
  | succ f ih =>
    intro t i ht hfe
    simp only [scheduleLoop_succ, if_pos ht]
    by_cases hrem : e - t ≤ pd
    · have hclip : min pd (e - t) = e - t := min_eq_right hrem
      simp only [hclip]
      have hend : t + (e - t) = e := by ring
      rw [hend]
      cases f with
      | zero => simp [scheduleLoop]
      | succ g => simp [scheduleLoop_succ, lt_irrefl]
    · push_neg at hrem
      have hclip : min pd (e - t) = pd := min_eq_left (le_of_lt hrem)
      simp only [hclip]
      apply ih
      · linarith
      · push_cast at hfe
        linarith

lemma fuelFor_sufficient {wl pd : ℚ} (hpd : 0 < pd) (hwl : 0 < wl) :
    wl ≤ (fuelFor wl pd : ℚ) * pd := by
  have hdiv : 0 < wl / pd := div_pos hwl hpd
  have hceil : (0 : ℤ) < ⌈wl / pd⌉ := Int.ceil_pos.mpr hdiv
  have htn : ((⌈wl / pd⌉.toNat : ℕ) : ℚ) = ((⌈wl / pd⌉ : ℤ) : ℚ) := by
    exact_mod_cast Int.toNat_of_nonneg (le_of_lt hceil)
  have hle : wl / pd ≤ ((⌈wl / pd⌉ : ℤ) : ℚ) := Int.le_ceil _
  have hfuel : wl / pd ≤ (fuelFor wl pd : ℚ) := by
    rw [fuelFor]
    push_cast
    push_cast at htn
    linarith
  calc wl = wl / pd * pd := by field_simp
    _ ≤ (fuelFor wl pd : ℚ) * pd := by
        exact mul_le_mul_of_nonneg_right hfuel (le_of_lt hpd)

/-! ### Lemmas about `Chained` schedules -/

lemma chained_getD_position :
    ∀ (l : List Placement) (t : ℚ), Chained t l → ∀ i, i < l.length →
      (l.getD i default).position = t + sumDur (l.take i) := by
  intro l
  induction l with
  | nil => intro t _ i hi; simp at hi
  | cons p ps ih =>
    intro t hc i hi
    rcases hc with ⟨hp, hcs⟩
    cases i with
    | zero => simpa [sumDur_nil] using hp
    | succ j =>
      have hj : j < ps.length := by simpa using hi
      rw [List.getD_cons_succ, List.take_succ_cons, sumDur_cons,
        ih (t + p.duration) hcs j hj]
      ring

lemma chained_getD_succ {t : ℚ} {l : List Placement} (hc : Chained t l) :
    ∀ i, i + 1 < l.length →
      (l.getD (i + 1) default).position
        = (l.getD i default).position + (l.getD i default).duration := by
  induction l generalizing t with
  | nil => intro i hi; simp at hi
  | cons p ps ih =>
    intro i hi
    rcases hc with ⟨hp, hcs⟩
    cases i with
    | zero =>
      have hps : 0 < ps.length := by simpa using hi
      cases ps with
      | nil => simp at hps
      | cons q qs =>
        rcases hcs with ⟨hq, _⟩
        simp only [List.getD_cons_succ, List.getD_cons_zero]
        rw [hq, hp]
    | succ j =>
      have hj : j + 1 < ps.length := by simpa using hi
      simp only [List.getD_cons_succ]
      exact ih hcs j hj

lemma chained_getD_mem :
    ∀ (l : List Placement) (i : Nat), i < l.length → l.getD i default ∈ l := by
  intro l
  induction l with
  | nil => intro i hi; simp at hi
  | cons p ps ih =>
    intro i hi
    cases i with
    | zero => simp
    | succ j =>
      have hj : j < ps.length := by simpa using hi
      rw [List.getD_cons_succ]
      exact List.mem_cons_of_mem _ (ih j hj)

lemma chained_pos_strict {t : ℚ} {l : List Placement} (hc : Chained t l)
    (hd : ∀ p ∈ l, 0 < p.duration) :
    ∀ i j, i < j → j < l.length →
      (l.getD i default).position < (l.getD j default).position := by
  intro i j
  induction j with
  | zero => intro hij _; exact absurd hij (Nat.not_lt_zero i)
  | succ k ih =>
    intro hij hk
    have hstep : (l.getD k default).position < (l.getD (k + 1) default).position := by
      rw [chained_getD_succ hc k hk]
      have : 0 < (l.getD k default).duration :=
        hd _ (chained_getD_mem l k (Nat.lt_of_succ_lt hk))
      linarith
    rcases Nat.lt_or_ge i k with hik | hik
    · exact lt_trans (ih hik (Nat.lt_of_succ_lt hk)) hstep
    · have : i = k := Nat.le_antisymm (Nat.lt_succ_iff.mp hij) hik
      rw [this]
      exact hstep

lemma chained_last_end :
    ∀ (l : List Placement) (t : ℚ), Chained t l → l ≠ [] →
      (l.getD (l.length - 1) default).position
        + (l.getD (l.length - 1) default).duration = t + sumDur l := by
  intro l
  induction l with
  | nil => intro t _ h; exact absurd rfl h
  | cons p ps ih =>
    intro t hc _
    rcases hc with ⟨hp, hcs⟩
    cases ps with
    | nil =>
      simp [List.getD_cons_zero, hp, sumDur_cons, sumDur_nil]
    | cons q qs =>
      have hne : q :: qs ≠ [] := List.cons_ne_nil _ _
      have hlen : (p :: q :: qs).length - 1 = (q :: qs).length - 1 + 1 := by simp
      rw [hlen, List.getD_cons_succ, sumDur_cons, ih (t + p.duration) hcs hne]
      ring

/-! ### buildSchedule consequences -/

lemma buildSchedule_chained (ws wl pd : ℚ) :
    Chained ws (buildSchedule ws wl pd) :=
  scheduleLoop_chained _ _ _ _ _

lemma buildSchedule_dur_pos (ws wl pd : ℚ) (hpd : 0 < pd) :
    ∀ p ∈ buildSchedule ws wl pd, 0 < p.duration :=
  scheduleLoop_dur_pos _ _ hpd _ _ _

lemma buildSchedule_sum (ws wl pd : ℚ) (hpd : 0 < pd) (hwl : 0 < wl) :
    sumDur (buildSchedule ws wl pd) = wl := by
  have hlt : ws < ws + wl := by linarith
  have hc := scheduleLoop_complete (ws + wl) pd hpd (fuelFor wl pd) ws 0 hlt
    (by rw [add_sub_cancel_left]; exact fuelFor_sufficient hpd hwl)
  have hf := scheduleLoop_final_eq (ws + wl) pd (fuelFor wl pd) ws 0
  rw [hc] at hf
  have := hf.symm
  rw [buildSchedule]
  linarith

lemma buildSchedule_ne_nil (ws wl pd : ℚ) (hwl : 0 < wl) :
    buildSchedule ws wl pd ≠ [] := by
  rw [buildSchedule, fuelFor]
  exact scheduleLoop_ne_nil _ _ _ _ _ (by linarith)

/-! ### Lemmas about the emitters -/

lemma getD_map_position :
    ∀ (l : List Placement) (i : Nat), i < l.length →
      (l.map Placement.position).getD i 0 = (l.getD i default).position := by
  intro l
  induction l with
  | nil => intro i hi; simp at hi
  | cons p ps ih =>
    intro i hi
    cases i with
    | zero => simp
    | succ j =>
      have hj : j < ps.length := by simpa using hi
      simp only [List.map_cons, List.getD_cons_succ]
      exact ih j hj

lemma transitionPositions_getD (l : List Placement) (i : Nat) (h : i + 1 < l.length) :
    (transitionPositions l).getD i 0 = (l.getD (i + 1) default).position := by
  cases l with
  | nil => simp at h
  | cons p ps =>
    have hi : i < ps.length := by simpa using h
    rw [transitionPositions, List.drop_one, List.tail_cons, List.getD_cons_succ]
    exact getD_map_position ps i hi

lemma xfadeOffsetsAux_getD (fade : ℚ) :
    ∀ (durs : List ℚ) (acc : ℚ) (i : Nat), i + 1 < durs.length →
      (xfadeOffsetsAux fade acc durs).getD i 0
        = acc + (durs.take (i + 1)).sum - ((i : ℚ) + 1) * fade := by
  intro durs
  induction durs with
  | nil => intro acc i hi; simp at hi
  | cons d rest ih =>
    intro acc i hi
    cases rest with
    | nil => simp at hi
    | cons d2 rest2 =>
      rw [xfadeOffsetsAux, if_neg (List.cons_ne_nil d2 rest2)]
      cases i with
      | zero =>
        simp only [List.getD_cons_zero, List.take_succ_cons, List.take_zero,
          List.sum_cons, List.sum_nil]
        push_cast
        ring
      | succ j =>
        have hj : j + 1 < (d2 :: rest2).length := by simpa using hi
        rw [List.getD_cons_succ, ih (acc + d - fade) j hj]
        simp only [List.take_succ_cons, List.sum_cons]
        push_cast
        ring

lemma sumDur_map_take (l : List Placement) (n : Nat) :
    ((l.map Placement.duration).take n).sum = sumDur (l.take n) := by
  rw [sumDur, List.map_take]

/-! ### Claim theorems -/

/-- C1: for every `window_length > 0`, `photo_count ≥ 1` and effective
`photo_duration > 0`, the sequential schedule produced by the scheduling loop
exactly partitions the window `[window_start, window_start + window_length)`:
it is nonempty and starts at `window_start`, each placement's position equals
the previous position plus its duration, positions are strictly increasing,
the durations sum to exactly `window_length` (rational arithmetic, so the
1e-6s float tolerance is met with exact equality), and the last placement ends
exactly at `window_start + window_length`. -/
theorem claim1_sequential_partition (ws wl pd : ℚ) (photoCount : ℤ)
    (hwl : 0 < wl) (_hcount : 1 ≤ photoCount) (hpd : 0 < pd) :
    SeqPartition ws wl (buildSchedule ws wl pd) := by
  have hchain := buildSchedule_chained ws wl pd
  have hdur := buildSchedule_dur_pos ws wl pd hpd
  have hsum := buildSchedule_sum ws wl pd hpd hwl
  have hne := buildSchedule_ne_nil ws wl pd hwl
  refine ⟨hne, ?_, ?_, ?_, hsum, ?_⟩
  · have h0 : 0 < (buildSchedule ws wl pd).length := List.length_pos.mpr hne
    rw [chained_getD_position _ ws hchain 0 h0]
    simp [sumDur_nil]
  · exact chained_getD_succ hchain
  · exact chained_pos_strict hchain hdur
  · rw [chained_last_end _ ws hchain hne, hsum]

/-- Witness for C1 at `window_start = 0`, `window_length = 5`,
`photo_duration = 2`, `photo_count = 1` (three placements: 2s, 2s, 1s). -/
theorem claim1_witness :
    ((0:ℚ) < 5 ∧ (1:ℤ) ≤ 1 ∧ (0:ℚ) < 2) ∧ SeqPartition 0 5 (buildSchedule 0 5 2) :=
  ⟨⟨by norm_num, by norm_num, by norm_num⟩,
    claim1_sequential_partition 0 5 2 1 (by norm_num) (by norm_num) (by norm_num)⟩

/-- C6: for every input (any window length, photo count, requested photo and
transition durations) the fade returned by `compute_photo_and_fade` is at most
half the returned photo duration. -/
theorem claim6_transition_bound (wl : ℚ) (n : ℤ) (rp rf : ℚ) :
    (computePhotoAndFade wl n rp rf).2 ≤ (computePhotoAndFade wl n rp rf).1 / 2 := by
  rw [computePhotoAndFade]
  by_cases h : n ≤ 0
  · rw [if_pos h]
    exact min_le_right _ _
  · rw [if_neg h]
    exact min_le_right _ _

/-- C7: in overlapping (crossfade) mode with at least two placements, every
placement before the last has its declared clip duration extended by exactly
the transition duration, so that the next placement's position equals the
current position plus the declared duration minus the transition duration,
while the final placement's declared duration is not extended. -/
theorem claim7_overlap_extension (ws wl pd fade : ℚ)
    (_h2 : 2 ≤ (buildSchedule ws wl pd).length) :
    (∀ i, i + 1 < (buildSchedule ws wl pd).length →
        ((buildSchedule ws wl pd).getD (i + 1) default).position
          = ((buildSchedule ws wl pd).getD i default).position
              + overlapClipDuration fade (buildSchedule ws wl pd) i - fade) ∧
    overlapClipDuration fade (buildSchedule ws wl pd)
        ((buildSchedule ws wl pd).length - 1)
      = ((buildSchedule ws wl pd).getD ((buildSchedule ws wl pd).length - 1)
          default).duration := by
  have hchain := buildSchedule_chained ws wl pd
  constructor
  · intro i hi
    rw [overlapClipDuration, if_pos hi, chained_getD_succ hchain i hi]
    ring
  · have hlast : ¬((buildSchedule ws wl pd).length - 1 + 1
        < (buildSchedule ws wl pd).length) := by omega
    rw [overlapClipDuration, if_neg hlast, add_zero]

/-- Witness for C7 on the schedule for window `[0, 5)` with photo duration 2
and fade 1 (three placements). -/
theorem claim7_witness :
    2 ≤ (buildSchedule 0 5 2).length ∧
    ((∀ i, i + 1 < (buildSchedule 0 5 2).length →
        ((buildSchedule 0 5 2).getD (i + 1) default).position
          = ((buildSchedule 0 5 2).getD i default).position
              + overlapClipDuration 1 (buildSchedule 0 5 2) i - 1) ∧
      overlapClipDuration 1 (buildSchedule 0 5 2)
          ((buildSchedule 0 5 2).length - 1)
        = ((buildSchedule 0 5 2).getD ((buildSchedule 0 5 2).length - 1)
            default).duration) :=
  ⟨by rw [buildSchedule, fuelFor_eq (n := 3) (by rw [Int.ceil_eq_iff]; norm_num)]
      norm_num [scheduleLoop, min_def],
    claim7_overlap_extension 0 5 2 1
      (by rw [buildSchedule, fuelFor_eq (n := 3) (by rw [Int.ceil_eq_iff]; norm_num)]
          norm_num [scheduleLoop, min_def])⟩

/-- C5: `compute_photo_and_fade` computes exactly the piecewise fit-adjustment
described by the claim — degenerate photo count, positive window, and
non-positive window cases — and on Scenario 1 (`total_duration = 600`,
`intro = 180`, `outro = 60`, `photo_count = 5`, requested photo duration 120,
requested transition 2) the window is `[180, 180 + 360)`, the effective timing
is `(72, 2)`, and the schedule is five placements of 72s each, the last ending
exactly at `t = 540`. -/
theorem claim5_fit_adjustment :
    (∀ (wl : ℚ) (n : ℤ) (rp rf : ℚ), n ≤ 0 →
        computePhotoAndFade wl n rp rf = (rp, min rf (rp / 2))) ∧
    (∀ (wl : ℚ) (n : ℤ) (rp rf : ℚ), 0 < n → 0 < wl →
        computePhotoAndFade wl n rp rf
          = (min rp (wl / (n : ℚ)), min rf (min rp (wl / (n : ℚ)) / 2))) ∧
    (∀ (wl : ℚ) (n : ℤ) (rp rf : ℚ), 0 < n → wl ≤ 0 →
        computePhotoAndFade wl n rp rf = (rp, min rf (rp / 2))) ∧
    slideshowWindow 600 180 60 = (180, 360) ∧
    computePhotoAndFade 360 5 120 2 = (72, 2) ∧
    buildSchedule 180 360 (computePhotoAndFade 360 5 120 2).1
      = [⟨0, 180, 72⟩, ⟨1, 252, 72⟩, ⟨2, 324, 72⟩, ⟨3, 396, 72⟩, ⟨4, 468, 72⟩] ∧
    ((468 : ℚ) + 72 = 180 + 360) := by
  refine ⟨?_, ?_, ?_, ?_, ?_, ?_, by norm_num⟩
  · intro wl n rp rf hn
    rw [computePhotoAndFade, if_pos hn]
  · intro wl n rp rf hn hwl
    have hnq : (0 : ℚ) < (n : ℚ) := by exact_mod_cast hn
    have hmax : 0 < wl / (n : ℚ) := div_pos hwl hnq
    rw [computePhotoAndFade, if_neg (not_le.mpr hn)]
    simp only [if_pos hwl, if_pos hmax]
  · intro wl n rp rf hn hwl
    rw [computePhotoAndFade, if_neg (not_le.mpr hn)]
    simp only [if_neg (not_lt.mpr hwl)]
    by_cases hrp : 0 < rp
    · simp only [if_pos hrp, min_self]
    · simp only [if_neg hrp]
  · norm_num [slideshowWindow]
  · norm_num [computePhotoAndFade, min_def]
  · have hpf : (computePhotoAndFade 360 5 120 2).1 = 72 := by
      norm_num [computePhotoAndFade, min_def]
    rw [hpf, buildSchedule, fuelFor_eq (n := 5) (by rw [Int.ceil_eq_iff]; norm_num)]
    norm_num [scheduleLoop, min_def]

/-- Witness for C5, applying the degenerate-count case at
`photo_count = -1`. -/
theorem claim5_witness :
    (-1 : ℤ) ≤ 0 ∧ computePhotoAndFade 10 (-1) 6 4 = (6, min 4 (6 / 2)) :=
  ⟨by norm_num, claim5_fit_adjustment.1 10 (-1) 6 4 (by norm_num)⟩

/-- C3: first part (confirmed): for every `window_length > 0` and effective
`photo_duration > 0`, the loop reaches its terminal condition within
`fuelFor = ⌈window_length / photo_duration⌉ + 1` steps — run with that much
fuel the final `current_time` equals `window_start + window_length` and at most
that many placements were produced.  Second part (the code bug): with effective
`photo_duration = 0` and window `[0, 1)`, every iteration appends a zero-length
placement and leaves `current_time` at `0 < 1`, so the Python `while` loop
never reaches its terminal condition and no error is ever raised — the list
grows forever (its length equals the fuel spent) instead of the run stopping
with an error. -/
theorem claim3_termination_bound_and_zero_duration_hang :
    (∀ ws wl pd : ℚ, 0 < pd → 0 < wl →
        (scheduleLoop (ws + wl) pd (fuelFor wl pd) ws 0).2 = ws + wl ∧
        (scheduleLoop (ws + wl) pd (fuelFor wl pd) ws 0).1.length ≤ fuelFor wl pd) ∧
    (∀ (fuel i : Nat),
        (scheduleLoop 1 0 fuel 0 i).2 = 0 ∧
        (scheduleLoop 1 0 fuel 0 i).1.length = fuel) := by
  constructor
  · intro ws wl pd hpd hwl
    refine ⟨?_, scheduleLoop_length_le _ _ _ _ _⟩
    apply scheduleLoop_complete (ws + wl) pd hpd (fuelFor wl pd) ws 0 (by linarith)
    rw [add_sub_cancel_left]
    exact fuelFor_sufficient hpd hwl
  · intro fuel
    induction fuel with
    | zero => intro i; simp [scheduleLoop]
    | succ f ih =>
      intro i
      have h01 : (0 : ℚ) < 1 := by norm_num
      have hclip : min (0 : ℚ) (1 - 0) = 0 := by norm_num
      constructor
      · simp only [scheduleLoop_succ, if_pos h01]
        simpa [hclip] using (ih (i + 1)).1
      · simp only [scheduleLoop_succ, if_pos h01, List.length_cons]
        have := (ih (i + 1)).2
        simp only [hclip, add_zero] at this ⊢
        omega

/-- Witness for C3's first part at `window_start = 0`, `window_length = 5`,
`photo_duration = 2`. -/
theorem claim3_witness :
    ((0:ℚ) < 2 ∧ (0:ℚ) < 5) ∧
    ((scheduleLoop (0 + 5) 2 (fuelFor 5 2) 0 0).2 = 0 + 5 ∧
      (scheduleLoop (0 + 5) 2 (fuelFor 5 2) 0 0).1.length ≤ fuelFor 5 2) :=
  ⟨⟨by norm_num, by norm_num⟩,
    claim3_termination_bound_and_zero_duration_hang.1 0 5 2 (by norm_num) (by norm_num)⟩

/-- C4 counterexample: with `photo_count = 1`, `window_length = 360` and the
default requested photo duration 120, the effective photo duration stays 120,
the scheduler produces three placements of the same photo (not one), and the
declarative emitter emits two Mask transitions (not zero). -/
theorem claim4_counterexample :
    (computePhotoAndFade 360 1 120 2).1 = 120 ∧
    (buildSchedule 0 360 (computePhotoAndFade 360 1 120 2).1).length = 3 ∧
    numTransitions (buildSchedule 0 360 (computePhotoAndFade 360 1 120 2).1) = 2 := by
  have hpf : (computePhotoAndFade 360 1 120 2).1 = 120 := by
    norm_num [computePhotoAndFade, min_def]
  have hs : (buildSchedule 0 360 (computePhotoAndFade 360 1 120 2).1).length = 3 := by
    rw [hpf, buildSchedule, fuelFor_eq (n := 3) (by rw [Int.ceil_eq_iff]; norm_num)]
    norm_num [scheduleLoop, min_def]
  exact ⟨hpf, hs, by rw [numTransitions, hs]⟩

/-- C4 amended: for `photo_count = 1` and `window_length > 0`, the scheduler
produces exactly one placement spanning the full window — and zero transitions
in both the declarative and the render emitter — provided the requested photo
duration is at least the window length (so the single photo does not repeat). -/
theorem claim4_amended (ws wl rp rf : ℚ) (hwl : 0 < wl) (hfit : wl ≤ rp) :
    buildSchedule ws wl (computePhotoAndFade wl 1 rp rf).1 = [⟨0, ws, wl⟩] ∧
    numTransitions (buildSchedule ws wl (computePhotoAndFade wl 1 rp rf).1) = 0 ∧
    xfadeOffsets (computePhotoAndFade wl 1 rp rf).2
        ((buildSchedule ws wl (computePhotoAndFade wl 1 rp rf).1).map Placement.duration)
      = [] := by
  have hpd : (computePhotoAndFade wl 1 rp rf).1 = wl := by
    rw [computePhotoAndFade, if_neg (by norm_num : ¬(1:ℤ) ≤ 0)]
    simp only [Int.cast_one, div_one, if_pos hwl, min_eq_right hfit]
  have hfuel : fuelFor wl wl = 2 := by
    rw [fuelFor, div_self (ne_of_gt hwl), Int.ceil_one]
    rfl
  have h1 : ws < ws + wl := by linarith
  have h2 : ¬(ws + wl < ws + wl) := lt_irrefl _
  have hsched : buildSchedule ws wl wl = [⟨0, ws, wl⟩] := by
    rw [buildSchedule, hfuel]
    simp only [scheduleLoop, if_pos h1, add_sub_cancel_left, min_self, if_neg h2]
  rw [hpd, hsched]
  exact ⟨rfl, rfl, by simp [xfadeOffsets, xfadeOffsetsAux]⟩

/-- Witness for C4 amended at `window_start = 0`, `window_length = 7`,
requested photo duration 10, requested fade 1. -/
theorem claim4_witness :
    ((0:ℚ) < 7 ∧ (7:ℚ) ≤ 10) ∧
    (buildSchedule 0 7 (computePhotoAndFade 7 1 10 1).1 = [⟨0, 0, 7⟩] ∧
      numTransitions (buildSchedule 0 7 (computePhotoAndFade 7 1 10 1).1) = 0 ∧
      xfadeOffsets (computePhotoAndFade 7 1 10 1).2
          ((buildSchedule 0 7 (computePhotoAndFade 7 1 10 1).1).map Placement.duration)
        = []) :=
  ⟨⟨by norm_num, by norm_num⟩, claim4_amended 0 7 10 1 (by norm_num) (by norm_num)⟩

/-- C2 counterexample: on Scenario 1's schedule (window `[180, 540)`, photo
duration 72, fade 2), the first transition descriptor of the declarative
project sits at position 252, while the first xfade window of the render
instructions starts at offset 70 — the two emitters do not agree (the gap of
182s is far beyond any floating-point tolerance). -/
theorem claim2_counterexample :
    (transitionPositions (buildSchedule 180 360 72)).getD 0 0 = 252 ∧
    (xfadeOffsets 2 ((buildSchedule 180 360 72).map Placement.duration)).getD 0 0 = 70 ∧
    ¬((252 : ℚ) = 70) := by
  have hs : buildSchedule 180 360 72
      = [⟨0, 180, 72⟩, ⟨1, 252, 72⟩, ⟨2, 324, 72⟩, ⟨3, 396, 72⟩, ⟨4, 468, 72⟩] := by
    rw [buildSchedule, fuelFor_eq (n := 5) (by rw [Int.ceil_eq_iff]; norm_num)]
    norm_num [scheduleLoop, min_def]
  rw [hs]
  refine ⟨?_, ?_, by norm_num⟩
  · norm_num [transitionPositions]
  · norm_num [xfadeOffsets, xfadeOffsetsAux, List.cons_ne_nil]

/-- C2 amended: the two emitters differ by a fixed, predictable amount: for
every schedule and every adjacent pair `i` (0-based), the `i`-th declarative
transition position equals the window start plus the `i`-th xfade offset plus
`(i + 1) ·` the transition duration — i.e. the render-mode offsets are
slideshow-local and shortened by the accumulated crossfade overlap, rather
than equal to the declarative positions. -/
theorem claim2_amended (ws wl pd fade : ℚ) (i : Nat)
    (h : i + 1 < (buildSchedule ws wl pd).length) :
    (transitionPositions (buildSchedule ws wl pd)).getD i 0
      = ws + (xfadeOffsets fade ((buildSchedule ws wl pd).map Placement.duration)).getD i 0
          + ((i : ℚ) + 1) * fade := by
  have hchain := buildSchedule_chained ws wl pd
  have hlen : i + 1 < ((buildSchedule ws wl pd).map Placement.duration).length := by
    simpa using h
  rw [transitionPositions_getD _ i h,
    chained_getD_position _ ws hchain (i + 1) h,
    xfadeOffsets, xfadeOffsetsAux_getD fade _ 0 i hlen,
    sumDur_map_take]
  ring

/-- Witness for C2 amended: first transition of Scenario 1's schedule,
`252 = 180 + 70 + 1 * 2`. -/
theorem claim2_witness :
    0 + 1 < (buildSchedule 180 360 72).length ∧
    (transitionPositions (buildSchedule 180 360 72)).getD 0 0
      = 180 + (xfadeOffsets 2 ((buildSchedule 180 360 72).map Placement.duration)).getD 0 0
          + (((0 : ℕ) : ℚ) + 1) * 2 :=
  ⟨by rw [buildSchedule, fuelFor_eq (n := 5) (by rw [Int.ceil_eq_iff]; norm_num)]
      norm_num [scheduleLoop, min_def],
    claim2_amended 180 360 72 2 0
      (by rw [buildSchedule, fuelFor_eq (n := 5) (by rw [Int.ceil_eq_iff]; norm_num)]
          norm_num [scheduleLoop, min_def])⟩

/-- C8 counterexample: with audio 100s, intro 50s, outro 20s... at intro 50s
and outro 40s the pair consumes 90% (> 80%) of the audio, yet the code leaves
both unchanged — auto-shrink does not run merely because the 80% mark is
exceeded (it would have rescaled intro to `100·0.6/90·50 = 100/3`). -/
theorem claim8_counterexample :
    (100 : ℚ) * (8 / 10) < 50 + 40 ∧
    autoShrinkIntroOutro 100 50 40 = (50, 40) ∧
    ¬((50 : ℚ) = 100 * (6 / 10) / (50 + 40) * 50) := by
  refine ⟨by norm_num, ?_, by norm_num⟩
  rw [autoShrinkIntroOutro, if_neg (by norm_num)]

/-- C8 amended: auto-shrink runs only when the window is negative (intro +
outro exceed the trimmed audio duration) — never merely above the 80% mark —
and in that case, since intro + outro then necessarily exceed 80% of the
audio, both are rescaled by `(0.6 · audio)/(intro + outro)` truncated to whole
seconds with a 5s floor each.  On Scenario 2 (`audio = 100`, `intro = 90`,
`outro = 20`) the deficit is 10s, the shrink yields intro 49s and outro 10s,
the window becomes 41s, and no error is raised; in general the "timing" error
is raised exactly when the window is still negative after the shrink. -/
theorem claim8_amended :
    (∀ a i o : ℚ, 0 ≤ a - i - o → autoShrinkIntroOutro a i o = (i, o)) ∧
    ((100 : ℚ) - 90 - 20 = -10 ∧
      autoShrinkIntroOutro 100 90 20 = (49, 10) ∧
      adjustedWindow 100 90 20 = Except.ok (49, 41)) ∧
    (∀ a i o : ℚ,
        adjustedWindow a i o = Except.error "timing"
          ↔ a - (autoShrinkIntroOutro a i o).1 - (autoShrinkIntroOutro a i o).2 < 0) := by
  have h1 : pyInt ((540:ℚ) / 11) = 49 := by
    rw [pyInt]; norm_num [Int.floor_eq_iff]
  have h2 : pyInt ((120:ℚ) / 11) = 10 := by
    rw [pyInt]; norm_num [Int.floor_eq_iff]
  refine ⟨?_, ⟨by norm_num, ?_, ?_⟩, ?_⟩
  · intro a i o h
    rw [autoShrinkIntroOutro, if_neg (not_lt.mpr h)]
  · rw [autoShrinkIntroOutro]
    norm_num [h1, h2, max_def]
  · rw [adjustedWindow, autoShrinkIntroOutro]
    norm_num [h1, h2, max_def]
  · intro a i o
    rw [adjustedWindow]
    by_cases h : a - (autoShrinkIntroOutro a i o).1 - (autoShrinkIntroOutro a i o).2 < 0
    · simp [h]
    · simp [h]

/-- Witness for C8 amended's no-shrink case at audio 10s, intro 2s, outro
3s. -/
theorem claim8_witness :
    (0 : ℚ) ≤ 10 - 2 - 3 ∧ autoShrinkIntroOutro 10 2 3 = (2, 3) :=
  ⟨by norm_num, claim8_amended.1 10 2 3 (by norm_num)⟩

/-- C9: in both pipelines the scheduler's failure conditions — negative window
length (after auto-shrink where enabled) and zero photos — truncate the run
before any placement computation and before any side effect: the resulting
trace contains the corresponding error event and no placement, no
temporary-directory creation and no output write. -/
theorem claim9_fail_fast :
    (∀ (a i o : ℚ) (n : Nat) (rp rf : ℚ),
        a - i - o < 0 ∨ n = 0 →
        FailsClean (renderVideoTrace a i o n rp rf) ∧
          (Event.timingError ∈ renderVideoTrace a i o n rp rf ∨
            Event.noPhotosError ∈ renderVideoTrace a i o n rp rf)) ∧
    (∀ (raw ts te i o : ℚ) (n : Nat) (rp rf : ℚ),
        0 < raw - ts - te →
        ((raw - ts - te) - (autoShrinkIntroOutro (raw - ts - te) i o).1
            - (autoShrinkIntroOutro (raw - ts - te) i o).2 < 0 ∨ n = 0) →
        FailsClean (createProjectTrace raw ts te i o n rp rf) ∧
          (Event.timingError ∈ createProjectTrace raw ts te i o n rp rf ∨
            Event.noPhotosError ∈ createProjectTrace raw ts te i o n rp rf)) := by
  constructor
  · intro a i o n rp rf h
    by_cases hsd : a - i - o < 0
    · rw [renderVideoTrace, if_pos hsd]
      exact ⟨⟨fun j => by simp, by simp, by simp⟩, Or.inl (by simp)⟩
    · have hn : n = 0 := h.resolve_left hsd
      subst hn
      rw [renderVideoTrace, if_neg hsd]
      exact ⟨⟨fun j => by simp, by simp, by simp⟩, Or.inr (by simp)⟩
  · intro raw ts te i o n rp rf haudio h
    have hna : ¬(raw - ts - te ≤ 0) := not_le.mpr haudio
    simp only [createProjectTrace]
    rw [if_neg hna]
    by_cases hsd : (raw - ts - te) - (autoShrinkIntroOutro (raw - ts - te) i o).1
        - (autoShrinkIntroOutro (raw - ts - te) i o).2 < 0
    · rw [if_pos hsd]
      exact ⟨⟨fun j => by simp, by simp, by simp⟩, Or.inl (by simp)⟩
    · have hn : n = 0 := h.resolve_left hsd
      subst hn
      rw [if_neg hsd]
      exact ⟨⟨fun j => by simp, by simp, by simp⟩, Or.inr (by simp)⟩

/-- Witness for C9's render pipeline at audio 10s, intro 20s, outro 0s (window
negative), three photos. -/
theorem claim9_witness :
    ((10:ℚ) - 20 - 0 < 0 ∨ (3:Nat) = 0) ∧
    (FailsClean (renderVideoTrace 10 20 0 3 120 2) ∧
      (Event.timingError ∈ renderVideoTrace 10 20 0 3 120 2 ∨
        Event.noPhotosError ∈ renderVideoTrace 10 20 0 3 120 2)) :=
  ⟨Or.inl (by norm_num), claim9_fail_fast.1 10 20 0 3 120 2 (Or.inl (by norm_num))⟩

/-- C10: if `trim_start + trim_end` consumes the whole probed audio duration,
`create_openshot_project` raises the trim error and its trace writes no
output; otherwise every successfully produced project uses the trimmed
duration `raw - trim_start - trim_end` for the project duration and all
scheduling (the slideshow window is carved out of the trimmed duration and the
photo schedule is built inside it), and the audio clip's source span starts at
`trim_start`. -/
theorem claim10_trim (raw ts te i o : ℚ) (n : Nat) (rp rf : ℚ) :
    (raw ≤ ts + te →
        createOpenshotProject raw ts te i o n rp rf = Except.error "trim" ∧
        Event.writeOutput ∉ createProjectTrace raw ts te i o n rp rf) ∧
    (∀ proj : Project,
        createOpenshotProject raw ts te i o n rp rf = Except.ok proj →
        proj.duration = raw - ts - te ∧
        proj.audioStart = ts ∧
        proj.audioEnd = ts + (raw - ts - te) ∧
        proj.windowLength = (raw - ts - te) - (autoShrinkIntroOutro (raw - ts - te) i o).1
            - (autoShrinkIntroOutro (raw - ts - te) i o).2 ∧
        proj.photoSchedule = buildSchedule proj.windowStart proj.windowLength
            (computePhotoAndFade proj.windowLength (n : ℤ) rp rf).1) := by
  constructor
  · intro h
    have h0 : raw - ts - te ≤ 0 := by linarith
    constructor
    · simp only [createOpenshotProject]
      rw [if_pos h0]
    · simp only [createProjectTrace]
      rw [if_pos h0]
      simp
  · intro proj hproj
    simp only [createOpenshotProject] at hproj
    by_cases h0 : raw - ts - te ≤ 0
    · rw [if_pos h0] at hproj
      exact absurd hproj (by simp)
    · rw [if_neg h0] at hproj
      by_cases hsd : (raw - ts - te) - (autoShrinkIntroOutro (raw - ts - te) i o).1
          - (autoShrinkIntroOutro (raw - ts - te) i o).2 < 0
      · rw [if_pos hsd] at hproj
        exact absurd hproj (by simp)
      · rw [if_neg hsd] at hproj
        by_cases hn : n = 0
        · rw [if_pos hn] at hproj
          exact absurd hproj (by simp)
        · rw [if_neg hn, Except.ok.injEq] at hproj
          subst hproj
          exact ⟨rfl, rfl, rfl, rfl, rfl⟩

/-- Witness for C10's trim-error case at probed duration 5s,
`trim_start = 3`, `trim_end = 2`. -/
theorem claim10_witness :
    (5:ℚ) ≤ 3 + 2 ∧
    (createOpenshotProject 5 3 2 180 60 1 120 2 = Except.error "trim" ∧
      Event.writeOutput ∉ createProjectTrace 5 3 2 180 60 1 120 2) :=
  ⟨by norm_num, (claim10_trim 5 3 2 180 60 1 120 2).1 (by norm_num)⟩

end OpenshotGen
